import Mathlib

/-!
Verification of the proximity-gated real-time chat broker of the
`elixir-api` repository (`src/services/wsserver.js`) against its
natural-language specification.

The JavaScript source is shallowly embedded:

* the geo utility `calculateDistance` is embedded over the real numbers
  (`Math.sin`, `Math.cos`, `Math.atan2`, `Math.sqrt` become their
  `Real` counterparts, `Math.PI` becomes `Real.pi`);
* the room registry (a JS `Map` from room id to a `Set` of sockets) is
  embedded as an association list from `String` to a duplicate-free
  `List` of connection handles;
* external collaborators (`jwt.verify`, `Bar.findById`) are embedded as
  an explicit environment of total functions returning `Option`, where
  `none` models a thrown verification error resp. a `null` lookup;
* the connection handler, message handler and close handler become pure
  functions from states and inputs to states and emitted frames, and a
  small event-trace semantics (`step` / `run`) replays the
  single-threaded event loop.
-/

namespace ElixirWs

/-! ### Geo utility (wsserver.js lines 166-178) -/

/-- Degree-to-radian conversion, `const toRad = (value) => (value * Math.PI) / 180`. -/
noncomputable def toRad (value : ℝ) : ℝ := value * Real.pi / 180

/-- JavaScript `Math.atan2 y x` on the reals (the code only ever reaches the
branches with `y ≥ 0` and `x ≥ 0`, but the function is embedded in full). -/
noncomputable def atan2 (y x : ℝ) : ℝ :=
  if 0 < x then Real.arctan (y / x)
  else if x < 0 then
    (if 0 ≤ y then Real.arctan (y / x) + Real.pi else Real.arctan (y / x) - Real.pi)
  else
    (if 0 < y then Real.pi / 2 else if y < 0 then -(Real.pi / 2) else 0)

/-- The intermediate haversine quantity `a` of `calculateDistance`:
`Math.sin(dLat / 2) ** 2 + Math.cos(toRad(lat1)) * Math.cos(toRad(lat2)) * Math.sin(dLng / 2) ** 2`
with `dLat = toRad(lat2 - lat1)` and `dLng = toRad(lng2 - lng1)`. -/
noncomputable def haversineA (lat1 lng1 lat2 lng2 : ℝ) : ℝ :=
  Real.sin (toRad (lat2 - lat1) / 2) ^ 2 +
    Real.cos (toRad lat1) * Real.cos (toRad lat2) * Real.sin (toRad (lng2 - lng1) / 2) ^ 2

/-- Embedding of `calculateDistance(lat1, lng1, lat2, lng2)`
(wsserver.js lines 167-178): `R * c` with `R = 6371` and
`c = 2 * Math.atan2(Math.sqrt(a), Math.sqrt(1 - a))`.  The leading
`isNaN` guard of the source cannot fire in the real-number embedding;
unparsable coordinates are rejected at the admission boundary instead. -/
noncomputable def calculateDistance (lat1 lng1 lat2 lng2 : ℝ) : ℝ :=
  let R : ℝ := 6371
  let a := haversineA lat1 lng1 lat2 lng2
  let c := 2 * atan2 (Real.sqrt a) (Real.sqrt (1 - a))
  R * c

/-- The distance contract as the specification words it (section 4.1):
the haversine great-circle formula on a mean Earth radius of 6371 km,
in its canonical `2 * R * arcsin (sqrt a)` form. -/
noncomputable def haversineSpecKm (lat1 lng1 lat2 lng2 : ℝ) : ℝ :=
  2 * 6371 * Real.arcsin (Real.sqrt (haversineA lat1 lng1 lat2 lng2))

/-! ### Frames: the JSON objects passed to `ws.send(JSON.stringify(...))` -/

/-- A primitive JSON value. -/
inductive JLeaf where
  | s (v : String)
  | n (v : Nat)
deriving DecidableEq

/-- A JSON field value: a primitive, or an embedded object of primitives.
Every object `wsserver.js` passes to `JSON.stringify` nests at most one
object level deep, so this two-level shape covers the full frame space. -/
inductive JVal where
  | leaf (v : JLeaf)
  | obj (fields : List (String × JLeaf))
deriving DecidableEq

/-- A serialized frame: the top-level JSON object, as a field list. -/
abbrev Frame := List (String × JVal)

/-- The rejection and in-session error frame `{ error: e }` of wsserver.js. -/
def errFrame (e : String) : Frame := [("error", .leaf (.s e))]

/-- The broadcast frame
`{ type: "message", data: { messageId, userId, username, content, timestamp } }`
of wsserver.js lines 260-269 (the timestamp ISO string is abstracted to the
store clock value it serializes). -/
def messageFrame (messageId : Nat) (userId username content : String)
    (timestamp : Nat) : Frame :=
  [("type", .leaf (.s "message")),
   ("data", .obj [("messageId", .n messageId), ("userId", .s userId),
                  ("username", .s username), ("content", .s content),
                  ("timestamp", .n timestamp)])]

/-- Whether a frame has the shape `{ type: "error", message: string }`
that the specification prescribes for outbound error frames. -/
def isTypedErrorShape : Frame → Bool
  | [("type", .leaf (.s "error")), ("message", .leaf (.s _))] => true
  | _ => false

/-- Whether a frame has the shape `{ error: string }`. -/
def isErrorShape : Frame → Bool
  | [("error", .leaf (.s _))] => true
  | _ => false

/-- Whether a frame is a broadcast message frame. -/
def isMessageShape : Frame → Bool
  | ("type", .leaf (.s "message")) :: _ => true
  | _ => false

/-- The `data.messageId` field of a broadcast frame. -/
def frameMessageId : Frame → Option Nat
  | [("type", .leaf (.s "message")), ("data", .obj (("messageId", .n i) :: _))] =>
      some i
  | _ => none

/-- The `data.userId` field of a broadcast frame. -/
def frameSenderId : Frame → Option String
  | [("type", .leaf (.s "message")),
     ("data", .obj (("messageId", _) :: ("userId", .s u) :: _))] => some u
  | _ => none

/-! ### Room registry (the `chatRooms` map of wsserver.js) -/

/-- A connection handle (one per physical socket). -/
abbrev Conn := Nat

/-- The registry: JS `Map` from room id to a `Set` of sockets, embedded as an
association list from `String` to a duplicate-free list of handles. -/
abbrev Registry := List (String × List Conn)

/-- JS `Map.get`. -/
def lookupRoom : Registry → String → Option (List Conn)
  | [], _ => none
  | (k, v) :: rest, r => if k = r then some v else lookupRoom rest r

/-- JS `Map.set`: replace the entry if the key is present, else append it. -/
def setRoom : Registry → String → List Conn → Registry
  | [], r, ms => [(r, ms)]
  | (k, v) :: rest, r, ms =>
      if k = r then (r, ms) :: rest else (k, v) :: setRoom rest r ms

/-- JS `Map.delete`. -/
def deleteRoom : Registry → String → Registry
  | [], _ => []
  | (k, v) :: rest, r => if k = r then rest else (k, v) :: deleteRoom rest r

/-- JS `Set.add`: a no-op when the element is already present. -/
def setAdd (ms : List Conn) (c : Conn) : List Conn :=
  if c ∈ ms then ms else ms ++ [c]

/-- The member snapshot of a room (an absent room reads as empty). -/
def membersOf (reg : Registry) (roomId : String) : List Conn :=
  (lookupRoom reg roomId).getD []

/-- Registration on admission (wsserver.js lines 229-232):
`if (!chatRooms.has(chatRoomId)) chatRooms.set(chatRoomId, new Set());`
`chatRooms.get(chatRoomId).add(ws);`. -/
def registerConn (reg : Registry) (roomId : String) (c : Conn) : Registry :=
  setRoom reg roomId (setAdd (membersOf reg roomId) c)

/-- Deregistration on close (wsserver.js lines 283-292): delete the socket
from the room set if the room is still present, and delete the room entry
once its set is empty. -/
def deregisterConn (reg : Registry) (roomId : String) (c : Conn) : Registry :=
  match lookupRoom reg roomId with
  | none => reg
  | some room =>
      let room2 := room.erase c
      if room2.length = 0 then deleteRoom reg roomId else setRoom reg roomId room2

/-- The registry states a JS `Map` of `Set`s can reach: unique keys,
duplicate-free member sets, and empty rooms garbage-collected. -/
def RegistryWF (reg : Registry) : Prop :=
  (reg.map Prod.fst).Nodup ∧ ∀ p ∈ reg, (p.2 : List Conn).Nodup ∧ p.2 ≠ []

instance : DecidablePred RegistryWF := fun _ =>
  inferInstanceAs (Decidable (_ ∧ _))

/-! ### Message store (the `Message` mongoose model) -/

/-- One persisted chat message, with the server-assigned `_id` and
`timestamp` (defaulted to `Date.now` by the schema). -/
structure StoredMessage where
  id : Nat
  barId : String
  userId : String
  username : String
  content : String
  timestamp : Nat
deriving DecidableEq

/-- The message store with its id allocator and clock. -/
structure Store where
  messages : List StoredMessage
  nextId : Nat
  now : Nat
deriving DecidableEq

/-- A successful `Message.create(messageData)`: durably append the message
and return it with its assigned id and timestamp. -/
def persistMessage (store : Store) (barId userId username content : String) :
    StoredMessage × Store :=
  let msg : StoredMessage :=
    ⟨store.nextId, barId, userId, username, content, store.now⟩
  (msg, ⟨store.messages ++ [msg], store.nextId + 1, store.now + 1⟩)

/-! ### Connection admission (wsserver.js lines 181-232) -/

/-- The payload `jwt.verify` returns; the code reads its `id` claim. -/
structure DecodedToken where
  id : String
deriving DecidableEq

/-- A bar document; `location.coordinates` is GeoJSON order, index 0 the
longitude and index 1 the latitude. -/
structure BarDoc where
  coordinates : ℝ × ℝ

/-- The external collaborators of the gate: `jwt.verify(token, JWT_SECRET)`
(`none` models a thrown JWT error) and `await Bar.findById(id)` (`none`
models a `null` result). -/
structure Env where
  verify : String → Option DecodedToken
  findBar : String → Option BarDoc

/-- One connection attempt, as decoded from the request URL.
`none` in a string field models an absent query parameter; `none` in a
coordinate field models `parseFloat` returning `NaN`. -/
structure ConnRequest where
  barId : Option String
  userId : Option String
  token : Option String
  lat : Option ℝ
  lng : Option ℝ

/-- JavaScript truthiness of `searchParams.get(...)`: present and non-empty. -/
def strPresent : Option String → Bool
  | none => false
  | some s => s ≠ ""

/-- The terminal admission decision of the gate. -/
inductive Admission where
  | rejected (error : String)
  | admitted (roomId userId : String)
deriving DecidableEq

/-- The gate of `wsServer.on('connection')` (wsserver.js lines 184-226),
one early-returning check after another:
required parameters, JWT verification and subject match, room lookup,
distance at most 0.1 km. -/
noncomputable def admitConn (env : Env) (req : ConnRequest) : Admission :=
  match req.barId, req.userId, req.token, req.lat, req.lng with
  | some barId, some userId, some token, some lat, some lng =>
    if barId = "" ∨ userId = "" ∨ token = "" then
      .rejected "Paramètres manquants ou invalides."
    else
      match env.verify token with
      | none => .rejected "Échec de l\x27authentification."
      | some decoded =>
        if decoded.id ≠ userId then
          .rejected "Token JWT invalide ou utilisateur non autorisé."
        else
          match env.findBar barId with
          | none => .rejected "Bar introuvable."
          | some bar =>
            if 0.1 < calculateDistance lat lng bar.coordinates.2 bar.coordinates.1 then
              .rejected "Vous êtes trop loin du bar pour rejoindre ce chat."
            else .admitted barId userId
  | _, _, _, _, _ => .rejected "Paramètres manquants ou invalides."

/-- Result of the connection handler on one attempt: the updated registry,
the frames sent to the connecting socket, and whether it was closed. -/
structure ConnResult where
  reg : Registry
  sends : List Frame
  closed : Bool
deriving DecidableEq

/-- The connection handler: a rejected socket is sent the reason frame and
closed; an admitted socket is registered in its room. -/
noncomputable def handleConnection (env : Env) (req : ConnRequest)
    (reg : Registry) (c : Conn) : ConnResult :=
  match admitConn env req with
  | .rejected e => ⟨reg, [errFrame e], true⟩
  | .admitted roomId _ => ⟨registerConn reg roomId c, [], false⟩

/-- All four admission checks pass: parameters present and well-typed, the
token verifies with subject equal to the declared user id, the room exists,
and the caller is within 0.1 km of it. -/
def ChecksPass (env : Env) (req : ConnRequest) : Prop :=
  ∃ barId userId token lat lng,
    req.barId = some barId ∧ req.userId = some userId ∧
    req.token = some token ∧ req.lat = some lat ∧ req.lng = some lng ∧
    barId ≠ "" ∧ userId ≠ "" ∧ token ≠ "" ∧
    (∃ d, env.verify token = some d ∧ d.id = userId) ∧
    (∃ bar, env.findBar barId = some bar ∧
      calculateDistance lat lng bar.coordinates.2 bar.coordinates.1 ≤ 0.1)

/-- The source condition of wsserver.js line 192:
`!chatRoomId || !userId || !token || isNaN(userLat) || isNaN(userLng)`. -/
def paramsMissing (req : ConnRequest) : Bool :=
  !strPresent req.barId || !strPresent req.userId || !strPresent req.token ||
    !(req.lat).isSome || !(req.lng).isSome

/-! ### Message handling (wsserver.js lines 235-280) -/

/-- A parsed inbound payload.  The handler reads only `username` and
`content`; `userId` stands for any client-supplied identity field, which
the handler never reads.  `none` models an absent field. -/
structure Payload where
  userId : Option String
  username : Option String
  content : Option String
deriving DecidableEq

/-- Result of the message handler: the updated store, the frames sent (in
order, with their target sockets), and whether the sender was closed. -/
structure HandlerResult where
  store : Store
  sends : List (Conn × Frame)
  closed : Bool
deriving DecidableEq

/-- The `ws.on('message')` handler of an admitted connection
(wsserver.js lines 235-280).  `raw = none` models a `JSON.parse` failure
(caught by the surrounding try), `dbReady` models
`mongoose.connection.readyState === 1`, and `createOk` models whether
`Message.create` resolves (its rejection is caught by the surrounding try).
`roomId` and `userId` are the values fixed at admission time; `isOpen`
models each target's `readyState === OPEN` at fan-out time. -/
def handleMessage (reg : Registry) (store : Store) (isOpen : Conn → Bool)
    (roomId userId : String) (sender : Conn)
    (raw : Option Payload) (dbReady createOk : Bool) : HandlerResult :=
  match raw with
  | none =>
      ⟨store, [(sender, errFrame "Erreur lors de l\x27enregistrement du message.")], false⟩
  | some p =>
    if strPresent p.username = false ∨ strPresent p.content = false then
      ⟨store, [(sender, errFrame "Données de message invalides.")], false⟩
    else if dbReady = false then
      ⟨store, [(sender, errFrame "Problème de connexion à la base de données.")], false⟩
    else if createOk = false then
      ⟨store, [(sender, errFrame "Erreur lors de l\x27enregistrement du message.")], false⟩
    else
      let pr := persistMessage store roomId userId
        ((p.username).getD "") ((p.content).getD "")
      match lookupRoom reg roomId with
      | none =>
          ⟨pr.2, [(sender, errFrame "Erreur lors de l\x27enregistrement du message.")], false⟩
      | some members =>
          let frame := messageFrame pr.1.id userId pr.1.username pr.1.content pr.1.timestamp
          ⟨pr.2, (members.filter isOpen).map (fun cl => (cl, frame)), false⟩

/-- The inbound payload fails the validation of wsserver.js line 239:
unparsable, or missing or empty display name or content. -/
def inboundInvalid : Option Payload → Prop
  | none => True
  | some p => strPresent p.username = false ∨ strPresent p.content = false

instance : DecidablePred inboundInvalid := fun raw =>
  match raw with
  | none => .isTrue trivial
  | some _ => inferInstanceAs (Decidable (_ ∨ _))

/-! ### Event-trace semantics of the single-threaded broker loop

The Node event loop serializes the handlers; a trace replays them.  A
`connect` event models the registration step of a connection the gate has
already admitted into `roomId` under `userId` (the gate itself is covered
by `admitConn` and `handleConnection`); a `message` event runs the message
handler of that connection; a `close` event runs the close handler
(wsserver.js lines 283-292). -/

/-- One event of the broker loop. -/
inductive Event where
  | connect (c : Conn) (roomId userId : String)
  | message (c : Conn) (raw : Option Payload) (dbReady createOk : Bool)
  | close (c : Conn)

/-- The broker state: the registry, the store, the table of open admitted
connections with their admission-time room and user, and the send log in
emission order. -/
structure SysState where
  reg : Registry
  store : Store
  conns : List (Conn × String × String)
  log : List (Conn × Frame)

/-- Find an open admitted connection. -/
def lookupConn : List (Conn × String × String) → Conn → Option (String × String)
  | [], _ => none
  | (c, ri, ui) :: rest, d =>
      if c = d then some (ri, ui) else lookupConn rest d

/-- Drop a connection from the open table. -/
def removeConn (l : List (Conn × String × String)) (c : Conn) :
    List (Conn × String × String) :=
  l.filter (fun p => p.1 != c)

/-- A socket is `OPEN` while it sits in the open table. -/
def isOpenIn (s : SysState) (c : Conn) : Bool :=
  (lookupConn s.conns c).isSome

/-- One step of the broker loop. -/
def step (s : SysState) (e : Event) : SysState :=
  match e with
  | .connect c roomId userId =>
      if (lookupConn s.conns c).isSome then s
      else { s with reg := registerConn s.reg roomId c,
                    conns := s.conns ++ [(c, roomId, userId)] }
  | .message c raw dbReady createOk =>
      match lookupConn s.conns c with
      | none => s
      | some (roomId, userId) =>
          let res := handleMessage s.reg s.store (isOpenIn s) roomId userId c
            raw dbReady createOk
          { s with store := res.store, log := s.log ++ res.sends }
  | .close c =>
      match lookupConn s.conns c with
      | none => s
      | some (roomId, _) =>
          { s with reg := deregisterConn s.reg roomId c,
                   conns := removeConn s.conns c }

/-- The empty broker. -/
def initState : SysState := ⟨[], ⟨[], 0, 0⟩, [], []⟩

/-- Replay a trace of events from the empty broker. -/
def run (events : List Event) : SysState := events.foldl step initState

/-- The message ids delivered to a connection by a send log, in order. -/
def receivedIdsLog (log : List (Conn × Frame)) (c : Conn) : List Nat :=
  (log.filter (fun e => e.1 == c)).filterMap (fun e => frameMessageId e.2)

/-- The message ids a connection has received, in delivery order. -/
def receivedIds (s : SysState) (c : Conn) : List Nat :=
  receivedIdsLog s.log c

/-- The inductive invariant of the broker loop: member sets are
duplicate-free, stored ids are below the allocator and strictly increasing
in persistence order, and logged frame ids are below the allocator and
strictly increasing per receiving connection. -/
def Inv (s : SysState) : Prop :=
  (∀ p ∈ s.reg, (p.2 : List Conn).Nodup)
  ∧ (∀ m ∈ s.store.messages, m.id < s.store.nextId)
  ∧ List.Pairwise (· < ·) (s.store.messages.map StoredMessage.id)
  ∧ (∀ cl f, (cl, f) ∈ s.log → ∀ i, frameMessageId f = some i → i < s.store.nextId)
  ∧ (∀ cl, List.Pairwise (· < ·) (receivedIdsLog s.log cl))

/-! ### Geo utility theorems -/

theorem toRad_sub (a b : ℝ) : toRad (a - b) = toRad a - toRad b := by
  unfold toRad; ring

theorem toRad_zero : toRad 0 = 0 := by
  unfold toRad; ring

/-- A spherical-law-of-cosines style bound: the quantity
`sin u * sin v + cos u * cos v * cos d` is the inner product of two unit
vectors, hence lies in `[-1, 1]`. -/
theorem trig_sum_bounds (u v d : ℝ) :
    -1 ≤ Real.sin u * Real.sin v + Real.cos u * Real.cos v * Real.cos d ∧
      Real.sin u * Real.sin v + Real.cos u * Real.cos v * Real.cos d ≤ 1 := by
  have ht1 : -1 ≤ Real.cos d := Real.neg_one_le_cos d
  have ht2 : Real.cos d ≤ 1 := Real.cos_le_one d
  have hs1 : -1 ≤ Real.cos (u - v) := Real.neg_one_le_cos _
  have hs2 : Real.cos (u - v) ≤ 1 := Real.cos_le_one _
  have ha1 : -1 ≤ Real.cos (u + v) := Real.neg_one_le_cos _
  have ha2 : Real.cos (u + v) ≤ 1 := Real.cos_le_one _
  rw [Real.cos_sub] at hs1 hs2
  rw [Real.cos_add] at ha1 ha2
  constructor
  · nlinarith [mul_nonneg (by linarith : (0:ℝ) ≤ 1 + Real.cos d)
      (by nlinarith : (0:ℝ) ≤ 1 + (Real.cos u * Real.cos v + Real.sin u * Real.sin v)),
      mul_nonneg (by linarith : (0:ℝ) ≤ 1 - Real.cos d)
      (by nlinarith : (0:ℝ) ≤ 1 - (Real.cos u * Real.cos v - Real.sin u * Real.sin v))]
  · nlinarith [mul_nonneg (by linarith : (0:ℝ) ≤ 1 + Real.cos d)
      (by nlinarith : (0:ℝ) ≤ 1 - (Real.cos u * Real.cos v + Real.sin u * Real.sin v)),
      mul_nonneg (by linarith : (0:ℝ) ≤ 1 - Real.cos d)
      (by nlinarith : (0:ℝ) ≤ 1 + (Real.cos u * Real.cos v - Real.sin u * Real.sin v))]

/-- Closed form of the haversine quantity `a` through half-angle and
angle-difference identities. -/
theorem haversineA_eq (lat1 lng1 lat2 lng2 : ℝ) :
    haversineA lat1 lng1 lat2 lng2 =
      (1 - (Real.sin (toRad lat1) * Real.sin (toRad lat2) +
        Real.cos (toRad lat1) * Real.cos (toRad lat2) *
          Real.cos (toRad lng2 - toRad lng1))) / 2 := by
  unfold haversineA
  rw [toRad_sub lat2 lat1, toRad_sub lng2 lng1]
  rw [Real.sin_sq_eq_half_sub, Real.sin_sq_eq_half_sub]
  rw [mul_div_cancel₀ _ (two_ne_zero), mul_div_cancel₀ _ (two_ne_zero)]
  rw [Real.cos_sub]
  ring

theorem haversineA_nonneg (lat1 lng1 lat2 lng2 : ℝ) :
    0 ≤ haversineA lat1 lng1 lat2 lng2 := by
  rw [haversineA_eq]
  have h := (trig_sum_bounds (toRad lat1) (toRad lat2) (toRad lng2 - toRad lng1)).2
  linarith

theorem haversineA_le_one (lat1 lng1 lat2 lng2 : ℝ) :
    haversineA lat1 lng1 lat2 lng2 ≤ 1 := by
  rw [haversineA_eq]
  have h := (trig_sum_bounds (toRad lat1) (toRad lat2) (toRad lng2 - toRad lng1)).1
  linarith

/-- On `[0, 1]`, the atan2 form of the haversine angle coincides with the
arcsin form. -/
theorem atan2_sqrt_eq_arcsin {a : ℝ} (h0 : 0 ≤ a) (h1 : a ≤ 1) :
    atan2 (Real.sqrt a) (Real.sqrt (1 - a)) = Real.arcsin (Real.sqrt a) := by
  rcases lt_or_eq_of_le h1 with hlt | heq
  · have hx : 0 < Real.sqrt (1 - a) := Real.sqrt_pos.mpr (by linarith)
    unfold atan2
    rw [if_pos hx]
    have hm : Real.sqrt a ∈ Set.Ioo (-(1:ℝ)) 1 := by
      constructor
      · have := Real.sqrt_nonneg a; linarith
      · rw [show (1:ℝ) = Real.sqrt 1 from (Real.sqrt_one).symm]
        exact Real.sqrt_lt_sqrt h0 hlt
    rw [Real.arcsin_eq_arctan hm, Real.sq_sqrt h0]
  · subst heq
    have hz : Real.sqrt (1 - 1) = 0 := by norm_num
    unfold atan2
    rw [hz]
    simp only [lt_irrefl, if_false]
    rw [if_pos (by rw [Real.sqrt_one]; norm_num : (0:ℝ) < Real.sqrt 1)]
    rw [Real.sqrt_one, Real.arcsin_one]

/-- The code distance equals the haversine specification distance. -/
theorem calculateDistance_eq_spec (lat1 lng1 lat2 lng2 : ℝ) :
    calculateDistance lat1 lng1 lat2 lng2 = haversineSpecKm lat1 lng1 lat2 lng2 := by
  show (6371 : ℝ) * (2 * atan2 (Real.sqrt (haversineA lat1 lng1 lat2 lng2))
      (Real.sqrt (1 - haversineA lat1 lng1 lat2 lng2))) = _
  rw [atan2_sqrt_eq_arcsin (haversineA_nonneg lat1 lng1 lat2 lng2)
    (haversineA_le_one lat1 lng1 lat2 lng2)]
  unfold haversineSpecKm
  ring

theorem calculateDistance_nonneg (lat1 lng1 lat2 lng2 : ℝ) :
    0 ≤ calculateDistance lat1 lng1 lat2 lng2 := by
  rw [calculateDistance_eq_spec]
  unfold haversineSpecKm
  have h : 0 ≤ Real.arcsin (Real.sqrt (haversineA lat1 lng1 lat2 lng2)) :=
    Real.arcsin_nonneg.mpr (Real.sqrt_nonneg _)
  nlinarith

theorem haversineA_self (a b : ℝ) : haversineA a b a b = 0 := by
  unfold haversineA
  simp [sub_self, toRad_zero]

theorem calculateDistance_self (a b : ℝ) : calculateDistance a b a b = 0 := by
  rw [calculateDistance_eq_spec]
  unfold haversineSpecKm
  rw [haversineA_self, Real.sqrt_zero, Real.arcsin_zero, mul_zero]

/-! ### Frame shape lemmas -/

theorem isMessageShape_errFrame (m : String) : isMessageShape (errFrame m) = false := rfl

theorem isErrorShape_errFrame (m : String) : isErrorShape (errFrame m) = true := rfl

theorem isTypedErrorShape_errFrame (m : String) :
    isTypedErrorShape (errFrame m) = false := rfl

theorem frameMessageId_errFrame (m : String) : frameMessageId (errFrame m) = none := rfl

theorem isMessageShape_messageFrame (i : Nat) (u un ct : String) (ts : Nat) :
    isMessageShape (messageFrame i u un ct ts) = true := rfl

theorem isErrorShape_messageFrame (i : Nat) (u un ct : String) (ts : Nat) :
    isErrorShape (messageFrame i u un ct ts) = false := rfl

theorem frameMessageId_messageFrame (i : Nat) (u un ct : String) (ts : Nat) :
    frameMessageId (messageFrame i u un ct ts) = some i := rfl

theorem frameSenderId_messageFrame (i : Nat) (u un ct : String) (ts : Nat) :
    frameSenderId (messageFrame i u un ct ts) = some u := rfl

/-! ### Message handler lemmas -/

/-- Exhaustive shape of the message handler result: an error frame to the
sender with an unchanged store, a successful persist-and-broadcast, or a
successful persist whose fan-out hits an absent room entry and falls into
the catch. -/
theorem handleMessage_cases (reg : Registry) (store : Store) (isOpen : Conn → Bool)
    (roomId userId : String) (sender : Conn) (raw : Option Payload)
    (dbReady createOk : Bool) :
    (∃ m, handleMessage reg store isOpen roomId userId sender raw dbReady createOk =
        ⟨store, [(sender, errFrame m)], false⟩ ∧
        (inboundInvalid raw ∨ dbReady = false ∨ createOk = false))
    ∨ (∃ p members, raw = some p ∧ ¬inboundInvalid raw ∧ dbReady = true ∧
        createOk = true ∧ lookupRoom reg roomId = some members ∧
        handleMessage reg store isOpen roomId userId sender raw dbReady createOk =
          ⟨⟨store.messages ++ [⟨store.nextId, roomId, userId, (p.username).getD "",
              (p.content).getD "", store.now⟩], store.nextId + 1, store.now + 1⟩,
           (members.filter isOpen).map (fun cl =>
             (cl, messageFrame store.nextId userId ((p.username).getD "")
               ((p.content).getD "") store.now)), false⟩)
    ∨ (∃ p, raw = some p ∧ ¬inboundInvalid raw ∧ dbReady = true ∧ createOk = true ∧
        lookupRoom reg roomId = none ∧
        handleMessage reg store isOpen roomId userId sender raw dbReady createOk =
          ⟨⟨store.messages ++ [⟨store.nextId, roomId, userId, (p.username).getD "",
              (p.content).getD "", store.now⟩], store.nextId + 1, store.now + 1⟩,
           [(sender, errFrame "Erreur lors de l\x27enregistrement du message.")], false⟩) := by
  cases raw with
  | none => exact .inl ⟨_, rfl, .inl trivial⟩
  | some p =>
      by_cases h1 : strPresent p.username = false ∨ strPresent p.content = false
      · refine .inl ⟨"Données de message invalides.", ?_, .inl h1⟩
        simp only [handleMessage]
        rw [if_pos h1]
      · by_cases hdb : dbReady = false
        · refine .inl ⟨"Problème de connexion à la base de données.", ?_, .inr (.inl hdb)⟩
          simp only [handleMessage]
          rw [if_neg h1, if_pos hdb]
        · by_cases hck : createOk = false
          · refine .inl ⟨"Erreur lors de l\x27enregistrement du message.", ?_,
              .inr (.inr hck)⟩
            simp only [handleMessage]
            rw [if_neg h1, if_neg hdb, if_pos hck]
          · cases hmem : lookupRoom reg roomId with
            | none =>
                refine .inr (.inr ⟨p, rfl, h1, ?_, ?_, rfl, ?_⟩)
                · exact Bool.not_eq_false dbReady |>.mp hdb
                · exact Bool.not_eq_false createOk |>.mp hck
                · simp only [handleMessage]
                  rw [if_neg h1, if_neg hdb, if_neg hck]
                  simp only [hmem, persistMessage]
            | some members =>
                refine .inr (.inl ⟨p, members, rfl, h1, ?_, ?_, rfl, ?_⟩)
                · exact Bool.not_eq_false dbReady |>.mp hdb
                · exact Bool.not_eq_false createOk |>.mp hck
                · simp only [handleMessage]
                  rw [if_neg h1, if_neg hdb, if_neg hck]
                  simp only [hmem, persistMessage]

/-- The message handler never closes the socket and never touches the
registry or the open-connection table. -/
theorem step_message_frame (s : SysState) (c : Conn) (raw : Option Payload)
    (dbReady createOk : Bool) :
    (step s (.message c raw dbReady createOk)).reg = s.reg
    ∧ (step s (.message c raw dbReady createOk)).conns = s.conns
    ∧ ∀ reg store isOpen roomId userId sender,
        (handleMessage reg store isOpen roomId userId sender raw dbReady createOk).closed
          = false := by
  refine ⟨?_, ?_, ?_⟩
  · simp only [step]
    cases h : lookupConn s.conns c with
    | none => rfl
    | some v => obtain ⟨ri, ui⟩ := v; rfl
  · simp only [step]
    cases h : lookupConn s.conns c with
    | none => rfl
    | some v => obtain ⟨ri, ui⟩ := v; rfl
  · intro reg store isOpen roomId userId sender
    rcases handleMessage_cases reg store isOpen roomId userId sender raw dbReady createOk
      with ⟨m, hm, _⟩ | ⟨p, members, _, _, _, _, _, hm⟩ | ⟨p, _, _, _, _, _, hm⟩ <;>
      rw [hm]

/-! ### Registry lemmas -/

theorem lookupRoom_setRoom_self (reg : Registry) (r : String) (ms : List Conn) :
    lookupRoom (setRoom reg r ms) r = some ms := by
  induction reg with
  | nil => simp [setRoom, lookupRoom]
  | cons p rest ih =>
      obtain ⟨k, v⟩ := p
      by_cases h : k = r
      · simp [setRoom, lookupRoom, h]
      · simp [setRoom, lookupRoom, h, ih]

theorem lookupRoom_setRoom_ne (reg : Registry) {r r' : String} (ms : List Conn)
    (h : r ≠ r') : lookupRoom (setRoom reg r ms) r' = lookupRoom reg r' := by
  induction reg with
  | nil => simp [setRoom, lookupRoom, h]
  | cons p rest ih =>
      obtain ⟨k, v⟩ := p
      by_cases hk : k = r
      · subst hk; simp [setRoom, lookupRoom, h]
      · by_cases hk' : k = r'
        · subst hk'; simp [setRoom, lookupRoom, hk]
        · simp [setRoom, lookupRoom, hk, hk', ih]

theorem setRoom_self {reg : Registry} {r : String} {ms : List Conn}
    (h : lookupRoom reg r = some ms) : setRoom reg r ms = reg := by
  induction reg with
  | nil => simp [lookupRoom] at h
  | cons p rest ih =>
      obtain ⟨k, v⟩ := p
      by_cases hk : k = r
      · subst hk
        simp [lookupRoom] at h
        simp [setRoom, h]
      · simp [lookupRoom, hk] at h
        simp [setRoom, hk, ih h]

theorem setRoom_setRoom (reg : Registry) (r : String) (v w : List Conn) :
    setRoom (setRoom reg r v) r w = setRoom reg r w := by
  induction reg with
  | nil => simp [setRoom]
  | cons p rest ih =>
      obtain ⟨k, u⟩ := p
      by_cases hk : k = r
      · simp [setRoom, hk]
      · simp [setRoom, hk, ih]

theorem lookupRoom_eq_none {reg : Registry} {r : String}
    (h : r ∉ reg.map Prod.fst) : lookupRoom reg r = none := by
  induction reg with
  | nil => simp [lookupRoom]
  | cons p rest ih =>
      obtain ⟨k, v⟩ := p
      simp only [List.map_cons, List.mem_cons] at h
      push_neg at h
      have hk : ¬k = r := fun hk => h.1 hk.symm
      simp [lookupRoom, hk, ih h.2]

theorem lookupRoom_some_mem {reg : Registry} {r : String} {ms : List Conn}
    (h : lookupRoom reg r = some ms) : (r, ms) ∈ reg := by
  induction reg with
  | nil => simp [lookupRoom] at h
  | cons p rest ih =>
      obtain ⟨k, v⟩ := p
      by_cases hk : k = r
      · subst hk
        simp [lookupRoom] at h
        simp [h]
      · simp [lookupRoom, hk] at h
        exact List.mem_cons_of_mem _ (ih h)

theorem lookupRoom_deleteRoom_self {reg : Registry} (r : String)
    (h : (reg.map Prod.fst).Nodup) : lookupRoom (deleteRoom reg r) r = none := by
  induction reg with
  | nil => simp [deleteRoom, lookupRoom]
  | cons p rest ih =>
      obtain ⟨k, v⟩ := p
      simp only [List.map_cons, List.nodup_cons] at h
      by_cases hk : k = r
      · subst hk
        have hd : deleteRoom ((k, v) :: rest) k = rest := by simp [deleteRoom]
        rw [hd]
        exact lookupRoom_eq_none (by simpa using h.1)
      · simp [deleteRoom, lookupRoom, hk, ih h.2]

theorem deregisterConn_of_none {reg : Registry} {r : String} (c : Conn)
    (h : lookupRoom reg r = none) : deregisterConn reg r c = reg := by
  unfold deregisterConn
  rw [h]

theorem deregisterConn_of_some {reg : Registry} {r : String} {room : List Conn}
    (c : Conn) (h : lookupRoom reg r = some room) :
    deregisterConn reg r c =
      if (room.erase c).length = 0 then deleteRoom reg r
      else setRoom reg r (room.erase c) := by
  unfold deregisterConn
  rw [h]

theorem mem_setAdd_self (ms : List Conn) (c : Conn) : c ∈ setAdd ms c := by
  unfold setAdd
  by_cases h : c ∈ ms <;> simp [h]

theorem mem_membersOf_registerConn (reg : Registry) (r : String) (c : Conn) :
    c ∈ membersOf (registerConn reg r c) r := by
  unfold registerConn membersOf
  rw [lookupRoom_setRoom_self]
  exact mem_setAdd_self _ _

/-- Claim C6.  Deregistration is idempotent and garbage-collects empty
rooms, on every well-formed registry state: running the close-handler
removal twice equals running it once; removal for an absent room or an
absent connection is a no-op; and removing the last member deletes the
room entry itself. -/
theorem deregister_idempotent_gc (reg : Registry) (r : String) (c : Conn)
    (hwf : RegistryWF reg) :
    deregisterConn (deregisterConn reg r c) r c = deregisterConn reg r c
    ∧ (lookupRoom reg r = none → deregisterConn reg r c = reg)
    ∧ (∀ ms, lookupRoom reg r = some ms → c ∉ ms → deregisterConn reg r c = reg)
    ∧ (lookupRoom reg r = some [c] →
        lookupRoom (deregisterConn reg r c) r = none) := by
  obtain ⟨hkeys, hrooms⟩ := hwf
  refine ⟨?_, ?_, ?_, ?_⟩
  · cases h : lookupRoom reg r with
    | none => rw [deregisterConn_of_none c h, deregisterConn_of_none c h]
    | some room =>
        have hnroom := (hrooms _ (lookupRoom_some_mem h)).1
        rw [deregisterConn_of_some c h]
        by_cases h2 : (room.erase c).length = 0
        · rw [if_pos h2]
          exact deregisterConn_of_none c (lookupRoom_deleteRoom_self r hkeys)
        · rw [if_neg h2]
          rw [deregisterConn_of_some c (lookupRoom_setRoom_self reg r _)]
          rw [List.erase_of_not_mem hnroom.not_mem_erase]
          rw [if_neg h2]
          exact setRoom_setRoom reg r _ _
  · exact deregisterConn_of_none c
  · intro ms h hc
    rw [deregisterConn_of_some c h]
    have hms := hrooms _ (lookupRoom_some_mem h)
    rw [List.erase_of_not_mem hc]
    have hne : ms.length ≠ 0 := by
      intro hlen
      exact hms.2 (List.length_eq_zero.mp hlen)
    rw [if_neg hne]
    exact setRoom_self h
  · intro h
    rw [deregisterConn_of_some c h]
    have hz : ([c].erase c).length = 0 := by simp
    rw [if_pos hz]
    exact lookupRoom_deleteRoom_self r hkeys

/-! ### Admission lemmas -/

theorem admit_of_checks {env : Env} {req : ConnRequest} (h : ChecksPass env req) :
    ∃ r u, req.barId = some r ∧ req.userId = some u ∧
      admitConn env req = .admitted r u := by
  obtain ⟨b, u, t, la, ln, hb, hu, ht, hla, hln, hbne, hune, htne,
    ⟨d, hd, hid⟩, ⟨bar, hbar, hdist⟩⟩ := h
  refine ⟨b, u, hb, hu, ?_⟩
  unfold admitConn
  simp only [hb, hu, ht, hla, hln]
  rw [if_neg (by simp [hbne, hune, htne])]
  simp only [hd]
  rw [if_neg (by simp [hid])]
  simp only [hbar]
  rw [if_neg (not_lt.mpr hdist)]

theorem checks_of_admitted {env : Env} {req : ConnRequest} {r u : String}
    (h : admitConn env req = .admitted r u) :
    ChecksPass env req ∧ req.barId = some r ∧ req.userId = some u := by
  obtain ⟨b, us, t, la, ln⟩ := req
  rcases b with _ | barId
  · simp [admitConn] at h
  rcases us with _ | userId
  · simp [admitConn] at h
  rcases t with _ | token
  · simp [admitConn] at h
  rcases la with _ | lat
  · simp [admitConn] at h
  rcases ln with _ | lng
  · simp [admitConn] at h
  simp only [admitConn] at h
  by_cases hb : barId = "" ∨ userId = "" ∨ token = ""
  · rw [if_pos hb] at h
    exact absurd h (by simp)
  · rw [if_neg hb] at h
    push_neg at hb
    cases hv : env.verify token with
    | none => rw [hv] at h; simp at h
    | some d =>
        rw [hv] at h
        simp only at h
        by_cases hid : d.id = userId
        · rw [if_neg (by simp [hid])] at h
          cases hbar : env.findBar barId with
          | none => rw [hbar] at h; simp at h
          | some bar =>
              rw [hbar] at h
              simp only at h
              by_cases hdist :
                  0.1 < calculateDistance lat lng bar.coordinates.2 bar.coordinates.1
              · rw [if_pos hdist] at h
                simp at h
              · rw [if_neg hdist] at h
                simp only [Admission.admitted.injEq] at h
                obtain ⟨hr, hu⟩ := h
                subst hr; subst hu
                exact ⟨⟨barId, userId, token, lat, lng, rfl, rfl, rfl, rfl, rfl,
                  hb.1, hb.2.1, hb.2.2, ⟨d, hv, hid⟩,
                  ⟨bar, hbar, not_lt.mp hdist⟩⟩, rfl, rfl⟩
        · rw [if_pos hid] at h
          simp at h

theorem params_ok_shape {req : ConnRequest} (h : paramsMissing req = false) :
    ∃ b u t la ln, req = ⟨some b, some u, some t, some la, some ln⟩ ∧
      b ≠ "" ∧ u ≠ "" ∧ t ≠ "" := by
  obtain ⟨b, us, t, la, ln⟩ := req
  rcases b with _ | b
  · simp [paramsMissing, strPresent] at h
  rcases us with _ | u
  · simp [paramsMissing, strPresent] at h
  rcases t with _ | t
  · simp [paramsMissing, strPresent] at h
  rcases la with _ | la
  · simp [paramsMissing, strPresent] at h
  rcases ln with _ | ln
  · simp [paramsMissing, strPresent] at h
  simp only [paramsMissing, strPresent, Bool.or_eq_false_iff, Bool.not_eq_false] at h
  exact ⟨b, u, t, la, ln, rfl, by simpa using h.1.1.1.1, by simpa using h.1.1.1.2,
    by simpa using h.1.1.2⟩

theorem admit_params_missing {req : ConnRequest} (h : paramsMissing req = true) :
    ∀ env : Env, admitConn env req = .rejected "Paramètres manquants ou invalides." := by
  intro env
  obtain ⟨b, us, t, la, ln⟩ := req
  rcases b with _ | b
  · simp [admitConn]
  rcases us with _ | u
  · simp [admitConn]
  rcases t with _ | t
  · simp [admitConn]
  rcases la with _ | la
  · simp [admitConn]
  rcases ln with _ | ln
  · simp [admitConn]
  simp only [paramsMissing, strPresent, Option.isSome_some, Bool.not_true,
    Bool.or_false, Bool.or_eq_true, Bool.not_eq_true', decide_eq_false_iff_not,
    Decidable.not_not] at h
  simp only [admitConn]
  rw [if_pos (by tauto)]

theorem handleConnection_rejected {env : Env} {req : ConnRequest} {e : String}
    (reg : Registry) (c : Conn) (h : admitConn env req = .rejected e) :
    handleConnection env req reg c = ⟨reg, [errFrame e], true⟩ := by
  unfold handleConnection
  rw [h]

theorem handleConnection_admitted {env : Env} {req : ConnRequest} {r u : String}
    (reg : Registry) (c : Conn) (h : admitConn env req = .admitted r u) :
    handleConnection env req reg c = ⟨registerConn reg r c, [], false⟩ := by
  unfold handleConnection
  rw [h]

theorem admit_auth_error {v : String → Option DecodedToken} {req : ConnRequest}
    {t : String} (hp : paramsMissing req = false) (ht : req.token = some t)
    (hv : v t = none) (fb : String → Option BarDoc) :
    admitConn ⟨v, fb⟩ req = .rejected "Échec de l\x27authentification." := by
  obtain ⟨b, u, t', la, ln, hshape, hbne, hune, htne⟩ := params_ok_shape hp
  subst hshape
  obtain rfl : t' = t := by simpa using ht
  simp only [admitConn]
  rw [if_neg (by simp [hbne, hune, htne])]
  simp only [hv]

theorem admit_subject_mismatch {v : String → Option DecodedToken}
    {req : ConnRequest} {t u : String} {d : DecodedToken}
    (hp : paramsMissing req = false) (ht : req.token = some t)
    (hu : req.userId = some u) (hv : v t = some d) (hid : d.id ≠ u)
    (fb : String → Option BarDoc) :
    admitConn ⟨v, fb⟩ req = .rejected "Token JWT invalide ou utilisateur non autorisé." := by
  obtain ⟨b, u', t', la, ln, hshape, hbne, hune, htne⟩ := params_ok_shape hp
  subst hshape
  obtain rfl : t' = t := by simpa using ht
  obtain rfl : u' = u := by simpa using hu
  simp only [admitConn]
  rw [if_neg (by simp [hbne, hune, htne])]
  simp only [hv]
  rw [if_pos hid]

theorem admit_room_not_found {env : Env} {b u t : String} {d : DecodedToken}
    (hbne : b ≠ "") (hune : u ≠ "") (htne : t ≠ "")
    (hv : env.verify t = some d) (hid : d.id = u) (hbar : env.findBar b = none) :
    ∀ la ln : ℝ,
      admitConn env ⟨some b, some u, some t, some la, some ln⟩ =
        .rejected "Bar introuvable." := by
  intro la ln
  simp only [admitConn]
  rw [if_neg (by simp [hbne, hune, htne])]
  simp only [hv]
  rw [if_neg (by simp [hid])]
  simp only [hbar]

theorem admit_too_far {env : Env} {b u t : String} {la ln : ℝ}
    {d : DecodedToken} {bar : BarDoc}
    (hbne : b ≠ "") (hune : u ≠ "") (htne : t ≠ "")
    (hv : env.verify t = some d) (hid : d.id = u)
    (hbar : env.findBar b = some bar)
    (hdist : 0.1 < calculateDistance la ln bar.coordinates.2 bar.coordinates.1) :
    admitConn env ⟨some b, some u, some t, some la, some ln⟩ =
      .rejected "Vous êtes trop loin du bar pour rejoindre ce chat." := by
  simp only [admitConn]
  rw [if_neg (by simp [hbne, hune, htne])]
  simp only [hv]
  rw [if_neg (by simp [hid])]
  simp only [hbar]
  rw [if_pos hdist]

/-- Claim C1.  A fresh connection appears in the registry after the
connection handler runs if and only if all admission checks pass
(parameters present and well-typed, token verifies with matching subject,
room found, distance at most 0.1 km); on any failed check the registry is
untouched. -/
theorem admission_iff_registry (env : Env) (req : ConnRequest) (reg : Registry)
    (c : Conn) (hfresh : ∀ r, c ∉ membersOf reg r) :
    ((∃ r, req.barId = some r ∧
        c ∈ membersOf (handleConnection env req reg c).reg r) ↔ ChecksPass env req)
    ∧ (¬ChecksPass env req → (handleConnection env req reg c).reg = reg) := by
  constructor
  · constructor
    · rintro ⟨r, hbar, hmem⟩
      cases hadm : admitConn env req with
      | rejected e =>
          rw [handleConnection_rejected reg c hadm] at hmem
          exact absurd hmem (hfresh r)
      | admitted r' u' => exact (checks_of_admitted hadm).1
    · intro h
      obtain ⟨r, u, hbar, hu, hadm⟩ := admit_of_checks h
      refine ⟨r, hbar, ?_⟩
      rw [handleConnection_admitted reg c hadm]
      exact mem_membersOf_registerConn reg r c
  · intro hnc
    cases hadm : admitConn env req with
    | rejected e => rw [handleConnection_rejected reg c hadm]
    | admitted r u => exact absurd (checks_of_admitted hadm).1 hnc

/-- Witness for C1: a caller standing exactly at the bar, with a token whose
subject matches, is admitted into the room set. -/
theorem admission_iff_registry_witness :
    (∀ r, (7 : Conn) ∉ membersOf ([] : Registry) r)
    ∧ ChecksPass ⟨fun _ => some ⟨"u1"⟩, fun _ => some ⟨(6.65, 46.78)⟩⟩
        ⟨some "bar1", some "u1", some "tok", some 46.78, some 6.65⟩
    ∧ (∃ r, (some "bar1" : Option String) = some r ∧
        7 ∈ membersOf (handleConnection
          ⟨fun _ => some ⟨"u1"⟩, fun _ => some ⟨(6.65, 46.78)⟩⟩
          ⟨some "bar1", some "u1", some "tok", some 46.78, some 6.65⟩ [] 7).reg r) := by
  have hfresh : ∀ r, (7 : Conn) ∉ membersOf ([] : Registry) r := by
    intro r
    simp [membersOf, lookupRoom]
  have hcp : ChecksPass ⟨fun _ => some ⟨"u1"⟩, fun _ => some ⟨(6.65, 46.78)⟩⟩
      ⟨some "bar1", some "u1", some "tok", some 46.78, some 6.65⟩ := by
    refine ⟨"bar1", "u1", "tok", 46.78, 6.65, rfl, rfl, rfl, rfl, rfl,
      by decide, by decide, by decide, ⟨⟨"u1"⟩, rfl, rfl⟩,
      ⟨⟨(6.65, 46.78)⟩, rfl, ?_⟩⟩
    show calculateDistance 46.78 6.65 46.78 6.65 ≤ 0.1
    rw [calculateDistance_self]
    norm_num
  exact ⟨hfresh, hcp,
    (admission_iff_registry _ _ [] 7 hfresh).1.mpr hcp⟩

/-- Claim C2.  The admission checks run in the fixed order parameters,
token, room, distance, short-circuiting at the first failure: a parameter
failure rejects identically under every environment, an auth failure
rejects identically under every room directory (no room lookup), a missing
room rejects identically for all caller coordinates (no distance
computation), and every rejection sends exactly one `{ error }` frame and
closes the socket, leaving the registry untouched. -/
theorem admission_order_shortcircuit (v : String → Option DecodedToken)
    (fb : String → Option BarDoc) (req : ConnRequest) (reg : Registry) (c : Conn) :
    (paramsMissing req = true →
      ∀ env2 : Env, admitConn env2 req = .rejected "Paramètres manquants ou invalides.")
    ∧ (paramsMissing req = false → ∀ t, req.token = some t → v t = none →
        ∀ fb2, admitConn ⟨v, fb2⟩ req = .rejected "Échec de l\x27authentification.")
    ∧ (paramsMissing req = false → ∀ t u d, req.token = some t →
        req.userId = some u → v t = some d → d.id ≠ u →
        ∀ fb2, admitConn ⟨v, fb2⟩ req =
          .rejected "Token JWT invalide ou utilisateur non autorisé.")
    ∧ (∀ b u t d, b ≠ "" → u ≠ "" → t ≠ "" → v t = some d → d.id = u →
        fb b = none → ∀ la ln : ℝ,
          admitConn ⟨v, fb⟩ ⟨some b, some u, some t, some la, some ln⟩ =
            .rejected "Bar introuvable.")
    ∧ (∀ b u t d bar, ∀ la ln : ℝ, b ≠ "" → u ≠ "" → t ≠ "" →
        v t = some d → d.id = u → fb b = some bar →
        0.1 < calculateDistance la ln bar.coordinates.2 bar.coordinates.1 →
        admitConn ⟨v, fb⟩ ⟨some b, some u, some t, some la, some ln⟩ =
          .rejected "Vous êtes trop loin du bar pour rejoindre ce chat.")
    ∧ (∀ env2 : Env, ∀ e, admitConn env2 req = .rejected e →
        (handleConnection env2 req reg c).sends = [errFrame e] ∧
        (handleConnection env2 req reg c).closed = true ∧
        (handleConnection env2 req reg c).reg = reg) := by
  refine ⟨?_, ?_, ?_, ?_, ?_, ?_⟩
  · intro h env2
    exact admit_params_missing h env2
  · intro hp t ht hv fb2
    exact admit_auth_error hp ht hv fb2
  · intro hp t u d ht hu hv hid fb2
    exact admit_subject_mismatch hp ht hu hv hid fb2
  · intro b u t d hbne hune htne hv hid hbar la ln
    exact @admit_room_not_found ⟨v, fb⟩ b u t d hbne hune htne hv hid hbar la ln
  · intro b u t d bar la ln hbne hune htne hv hid hbar hdist
    exact @admit_too_far ⟨v, fb⟩ b u t la ln d bar hbne hune htne hv hid hbar hdist
  · intro env2 e h
    rw [handleConnection_rejected reg c h]
    exact ⟨rfl, rfl, rfl⟩

/-- Witness for C2: a request with no token is rejected as missing
parameters under any environment, and the rejected socket gets exactly the
reason frame and is closed. -/
theorem admission_order_shortcircuit_witness :
    paramsMissing ⟨some "bar1", some "u1", none, some (0 : ℝ), some (0 : ℝ)⟩ = true
    ∧ admitConn ⟨fun _ => none, fun _ => none⟩
        ⟨some "bar1", some "u1", none, some (0 : ℝ), some (0 : ℝ)⟩ =
        .rejected "Paramètres manquants ou invalides."
    ∧ (handleConnection ⟨fun _ => none, fun _ => none⟩
        ⟨some "bar1", some "u1", none, some (0 : ℝ), some (0 : ℝ)⟩ [] 7).closed = true := by
  have h := admission_order_shortcircuit (fun _ => none) (fun _ => none)
    ⟨some "bar1", some "u1", none, some (0 : ℝ), some (0 : ℝ)⟩ [] 7
  have hp : paramsMissing ⟨some "bar1", some "u1", none, some (0 : ℝ), some (0 : ℝ)⟩ = true := by
    simp [paramsMissing, strPresent]
  have hadm := h.1 hp ⟨fun _ => none, fun _ => none⟩
  exact ⟨hp, hadm, (h.2.2.2.2.2 _ _ hadm).2.1⟩

/-- Counterexample to C7 as stated: the gate rejects an unverifiable token
and a verified token with mismatched subject with two different reason
frames, so the caller can distinguish the two failures. -/
theorem auth_rejection_not_uniform :
    admitConn ⟨fun _ => none, fun _ => none⟩
        ⟨some "bar1", some "u1", some "tok", some (0 : ℝ), some (0 : ℝ)⟩ =
      .rejected "Échec de l\x27authentification."
    ∧ admitConn ⟨fun _ => some ⟨"mallory"⟩, fun _ => none⟩
        ⟨some "bar1", some "u1", some "tok", some (0 : ℝ), some (0 : ℝ)⟩ =
      .rejected "Token JWT invalide ou utilisateur non autorisé."
    ∧ ("Échec de l\x27authentification." : String) ≠
        "Token JWT invalide ou utilisateur non autorisé." := by
  refine ⟨?_, ?_, by decide⟩
  · exact admit_auth_error (by simp [paramsMissing, strPresent]) rfl rfl _
  · exact admit_subject_mismatch (by simp [paramsMissing, strPresent]) rfl rfl rfl
      (by decide) _

/-- Claim C7, amended.  The two authentication failure modes produce fixed
but distinct rejection reasons: an unverifiable token always yields the
generic authentication-failure frame, a verified token whose subject
differs from the declared user id always yields the invalid-token frame,
and the two reason strings differ, so the rejection observable does
distinguish the cases (contrary to the uniform reason the spec asks for). -/
theorem auth_rejection_reasons (v : String → Option DecodedToken)
    (req : ConnRequest) :
    (paramsMissing req = false → ∀ t, req.token = some t → v t = none →
      ∀ fb, admitConn ⟨v, fb⟩ req = .rejected "Échec de l\x27authentification.")
    ∧ (paramsMissing req = false → ∀ t u d, req.token = some t →
        req.userId = some u → v t = some d → d.id ≠ u →
        ∀ fb, admitConn ⟨v, fb⟩ req =
          .rejected "Token JWT invalide ou utilisateur non autorisé.")
    ∧ ("Échec de l\x27authentification." : String) ≠
        "Token JWT invalide ou utilisateur non autorisé." := by
  refine ⟨?_, ?_, by decide⟩
  · intro hp t ht hv fb
    exact admit_auth_error hp ht hv fb
  · intro hp t u d ht hu hv hid fb
    exact admit_subject_mismatch hp ht hu hv hid fb

/-- Witness for the amended C7 at concrete environments. -/
theorem auth_rejection_reasons_witness :
    paramsMissing ⟨some "bar2", some "u2", some "tok2", some (1 : ℝ), some (1 : ℝ)⟩ = false
    ∧ admitConn ⟨fun _ => none, fun _ => none⟩
        ⟨some "bar2", some "u2", some "tok2", some (1 : ℝ), some (1 : ℝ)⟩ =
        .rejected "Échec de l\x27authentification."
    ∧ admitConn ⟨fun _ => some ⟨"other"⟩, fun _ => none⟩
        ⟨some "bar2", some "u2", some "tok2", some (1 : ℝ), some (1 : ℝ)⟩ =
        .rejected "Token JWT invalide ou utilisateur non autorisé." := by
  have hp : paramsMissing
      ⟨some "bar2", some "u2", some "tok2", some (1 : ℝ), some (1 : ℝ)⟩ = false := by
    simp [paramsMissing, strPresent]
  refine ⟨hp, ?_, ?_⟩
  · exact (auth_rejection_reasons (fun _ => none) _).1 hp "tok2" rfl rfl _
  · exact (auth_rejection_reasons (fun _ => some ⟨"other"⟩) _).2.1 hp "tok2" "u2"
      ⟨"other"⟩ rfl rfl rfl (by decide) _

/-- Witness for C6 at a concrete two-member registry. -/
theorem deregister_idempotent_gc_witness :
    RegistryWF [("bar1", [1, 2]), ("bar2", [3])]
    ∧ deregisterConn (deregisterConn [("bar1", [1, 2]), ("bar2", [3])] "bar2" 3) "bar2" 3
        = deregisterConn [("bar1", [1, 2]), ("bar2", [3])] "bar2" 3
    ∧ lookupRoom (deregisterConn [("bar1", [1, 2]), ("bar2", [3])] "bar2" 3) "bar2"
        = none := by
  have hwf : RegistryWF [("bar1", [1, 2]), ("bar2", [3])] := by decide
  have h := deregister_idempotent_gc [("bar1", [1, 2]), ("bar2", [3])] "bar2" 3 hwf
  exact ⟨hwf, h.1, h.2.2.2 (by decide)⟩

/-- Claim C3.  Persist-then-publish: every broadcast message frame the
handler emits is built from the id and timestamp the store assigned to a
message that is persisted in the resulting store, and on any failed
persistence path no message frame is sent to anyone. -/
theorem persist_then_publish (reg : Registry) (store : Store) (isOpen : Conn → Bool)
    (roomId userId : String) (sender : Conn) (raw : Option Payload)
    (dbReady createOk : Bool) :
    (∀ cl f, (cl, f) ∈ (handleMessage reg store isOpen roomId userId sender raw
        dbReady createOk).sends → isMessageShape f = true →
      ∃ msg, msg ∈ (handleMessage reg store isOpen roomId userId sender raw
          dbReady createOk).store.messages ∧
        msg.id = store.nextId ∧ msg.timestamp = store.now ∧
        f = messageFrame msg.id msg.userId msg.username msg.content msg.timestamp ∧
        msg.barId = roomId ∧ msg.userId = userId)
    ∧ ((inboundInvalid raw ∨ dbReady = false ∨ createOk = false) →
        ∀ cl f, (cl, f) ∈ (handleMessage reg store isOpen roomId userId sender raw
          dbReady createOk).sends → isMessageShape f = false) := by
  rcases handleMessage_cases reg store isOpen roomId userId sender raw dbReady createOk
    with ⟨m, hm, _⟩ | ⟨p, members, hraw, hval, hdb, hck, hmem, hm⟩ |
      ⟨p, hraw, hval, hdb, hck, hmem, hm⟩
  · constructor
    · intro cl f hf hshape
      rw [hm] at hf
      simp only [List.mem_singleton, Prod.mk.injEq] at hf
      rw [hf.2, isMessageShape_errFrame] at hshape
      exact absurd hshape (by decide)
    · intro _ cl f hf
      rw [hm] at hf
      simp only [List.mem_singleton, Prod.mk.injEq] at hf
      rw [hf.2, isMessageShape_errFrame]
  · constructor
    · intro cl f hf _
      rw [hm] at hf
      simp only [List.mem_map] at hf
      obtain ⟨cl', _, heq⟩ := hf
      injection heq with h1 h2
      refine ⟨⟨store.nextId, roomId, userId, (p.username).getD "",
        (p.content).getD "", store.now⟩, ?_, rfl, rfl, ?_, rfl, rfl⟩
      · rw [hm]
        exact List.mem_append_right _ (List.mem_singleton.mpr rfl)
      · exact h2.symm
    · intro hfail
      rcases hfail with hfail | hfail | hfail
      · exact absurd hfail hval
      · rw [hdb] at hfail
        exact absurd hfail (by decide)
      · rw [hck] at hfail
        exact absurd hfail (by decide)
  · constructor
    · intro cl f hf hshape
      rw [hm] at hf
      simp only [List.mem_singleton, Prod.mk.injEq] at hf
      rw [hf.2, isMessageShape_errFrame] at hshape
      exact absurd hshape (by decide)
    · intro _ cl f hf
      rw [hm] at hf
      simp only [List.mem_singleton, Prod.mk.injEq] at hf
      rw [hf.2, isMessageShape_errFrame]

/-- Witness for C3: a successfully persisted message is broadcast with the
store-assigned id 0 and timestamp 0, both present in the resulting store. -/
theorem persist_then_publish_witness :
    ((4 : Conn), messageFrame 0 "u1" "alice" "hi" 0) ∈
      (handleMessage [("r1", [4, 5])] ⟨[], 0, 0⟩ (fun _ => true) "r1" "u1" 4
        (some ⟨none, some "alice", some "hi"⟩) true true).sends
    ∧ ∃ msg, msg ∈ (handleMessage [("r1", [4, 5])] ⟨[], 0, 0⟩ (fun _ => true)
          "r1" "u1" 4 (some ⟨none, some "alice", some "hi"⟩) true true).store.messages ∧
        msg.id = (0 : Nat) ∧ msg.timestamp = (0 : Nat) ∧
        messageFrame 0 "u1" "alice" "hi" 0 =
          messageFrame msg.id msg.userId msg.username msg.content msg.timestamp ∧
        msg.barId = "r1" ∧ msg.userId = "u1" := by
  have hmem : ((4 : Conn), messageFrame 0 "u1" "alice" "hi" 0) ∈
      (handleMessage [("r1", [4, 5])] ⟨[], 0, 0⟩ (fun _ => true) "r1" "u1" 4
        (some ⟨none, some "alice", some "hi"⟩) true true).sends := by decide
  exact ⟨hmem, (persist_then_publish [("r1", [4, 5])] ⟨[], 0, 0⟩ (fun _ => true)
    "r1" "u1" 4 (some ⟨none, some "alice", some "hi"⟩) true true).1 4 _ hmem rfl⟩

/-- Counterexample to C4 as stated: the error frame the handler sends for a
malformed payload has the shape `{ error: string }`, not the
`{ type: "error", message: string }` shape the claim prescribes. -/
theorem message_error_frame_shape_counterexample :
    (handleMessage [("bar1", [5])] ⟨[], 0, 0⟩ (fun _ => true) "bar1" "u1" 5
        (some ⟨none, some "alice", none⟩) true true).sends =
      [(5, errFrame "Données de message invalides.")]
    ∧ isTypedErrorShape (errFrame "Données de message invalides.") = false
    ∧ isErrorShape (errFrame "Données de message invalides.") = true :=
  ⟨rfl, rfl, rfl⟩

/-- Claim C4, amended.  For a malformed inbound frame or a failed
persistence, exactly the sending connection receives one error frame — of
shape `{ error: string }` rather than the specified
`{ type: "error", message: string }` — nothing is broadcast, the store is
unchanged, the socket is not closed, and the registry (hence the sender's
registration) is untouched. -/
theorem message_error_to_sender_only (reg : Registry) (store : Store)
    (isOpen : Conn → Bool) (roomId userId : String) (sender : Conn)
    (raw : Option Payload) (dbReady createOk : Bool)
    (h : inboundInvalid raw ∨ dbReady = false ∨ createOk = false) :
    (∃ m, handleMessage reg store isOpen roomId userId sender raw dbReady createOk =
        ⟨store, [(sender, errFrame m)], false⟩ ∧
        isErrorShape (errFrame m) = true ∧ isTypedErrorShape (errFrame m) = false)
    ∧ (∀ s : SysState, (step s (.message sender raw dbReady createOk)).reg = s.reg) := by
  rcases handleMessage_cases reg store isOpen roomId userId sender raw dbReady createOk
    with ⟨m, hm, _⟩ | ⟨p, members, hraw, hval, hdb, hck, hmem, hm⟩ |
      ⟨p, hraw, hval, hdb, hck, hmem, hm⟩
  · exact ⟨⟨m, hm, rfl, rfl⟩,
      fun s => (step_message_frame s sender raw dbReady createOk).1⟩
  · exfalso
    rcases h with h | h | h
    · exact hval h
    · rw [hdb] at h; exact absurd h (by decide)
    · rw [hck] at h; exact absurd h (by decide)
  · exfalso
    rcases h with h | h | h
    · exact hval h
    · rw [hdb] at h; exact absurd h (by decide)
    · rw [hck] at h; exact absurd h (by decide)

/-- Witness for the amended C4 at a payload with a missing content field. -/
theorem message_error_to_sender_only_witness :
    (inboundInvalid (some ⟨none, some "alice", none⟩) ∨ (true : Bool) = false ∨
      (true : Bool) = false)
    ∧ ∃ m, handleMessage [("bar1", [5, 6])] ⟨[], 0, 0⟩ (fun _ => true) "bar1" "u1" 5
        (some ⟨none, some "alice", none⟩) true true =
        ⟨⟨[], 0, 0⟩, [(5, errFrame m)], false⟩ ∧
        isErrorShape (errFrame m) = true ∧ isTypedErrorShape (errFrame m) = false := by
  have h : inboundInvalid (some ⟨none, some "alice", none⟩) ∨ (true : Bool) = false ∨
      (true : Bool) = false := .inl (.inr rfl)
  exact ⟨h, (message_error_to_sender_only [("bar1", [5, 6])] ⟨[], 0, 0⟩ (fun _ => true)
    "bar1" "u1" 5 (some ⟨none, some "alice", none⟩) true true h).1⟩

/-- Claim C5.  Broadcast isolation: when one room member k cannot be sent
to (its socket is no longer OPEN, the failure mode of a peer that
disconnected an instant earlier), the fan-out still delivers the message
frame to every other member, sends nothing to k, sends no error frame to
anyone — in particular none to the sender — and does not close the
sender. -/
theorem broadcast_isolation (reg : Registry) (store : Store) (isOpen : Conn → Bool)
    (roomId userId : String) (sender : Conn) (p : Payload)
    (dbReady createOk : Bool) (members : List Conn) (k : Conn)
    (hval : ¬inboundInvalid (some p)) (hdb : dbReady = true) (hck : createOk = true)
    (hmem : lookupRoom reg roomId = some members)
    (hk : isOpen k = false)
    (hothers : ∀ cl ∈ members, cl ≠ k → isOpen cl = true) :
    ∃ frame, isMessageShape frame = true ∧
      (∀ cl ∈ members, cl ≠ k →
        (cl, frame) ∈ (handleMessage reg store isOpen roomId userId sender (some p)
          dbReady createOk).sends)
      ∧ (∀ g, (k, g) ∉ (handleMessage reg store isOpen roomId userId sender (some p)
          dbReady createOk).sends)
      ∧ (∀ cl g, (cl, g) ∈ (handleMessage reg store isOpen roomId userId sender (some p)
          dbReady createOk).sends → g = frame ∧ isErrorShape g = false)
      ∧ (handleMessage reg store isOpen roomId userId sender (some p)
          dbReady createOk).closed = false := by
  rcases handleMessage_cases reg store isOpen roomId userId sender (some p) dbReady createOk
    with ⟨m, hm, hside⟩ | ⟨p', members', hraw, hval', hdb', hck', hmem', hm⟩ |
      ⟨p', hraw, hval', hdb', hck', hmem', hm⟩
  · exfalso
    rcases hside with hside | hside | hside
    · exact hval hside
    · rw [hdb] at hside; exact absurd hside (by decide)
    · rw [hck] at hside; exact absurd hside (by decide)
  · have hp : p = p' := by
      injection hraw
    subst hp
    have hmm : members = members' := by
      rw [hmem'] at hmem
      injection hmem with h
      exact h.symm
    subst hmm
    refine ⟨messageFrame store.nextId userId ((p.username).getD "")
      ((p.content).getD "") store.now, rfl, ?_, ?_, ?_, ?_⟩
    · intro cl hcl hne
      rw [hm]
      exact List.mem_map.mpr ⟨cl, List.mem_filter.mpr ⟨hcl, hothers cl hcl hne⟩, rfl⟩
    · intro g hg
      rw [hm] at hg
      obtain ⟨cl', hcl', heq⟩ := List.mem_map.mp hg
      have hop := (List.mem_filter.mp hcl').2
      injection heq with h1 h2
      rw [h1, hk] at hop
      exact absurd hop (by decide)
    · intro cl g hg
      rw [hm] at hg
      obtain ⟨cl', _, heq⟩ := List.mem_map.mp hg
      injection heq with h1 h2
      refine ⟨h2.symm, ?_⟩
      rw [← h2]
      rfl
    · rw [hm]
  · exfalso
    rw [hmem] at hmem'
    exact absurd hmem' (by simp)

/-- Witness for C5: room members 1, 2, 3 with member 2 already closed;
members 1 and 3 both receive the broadcast and nobody receives an error. -/
theorem broadcast_isolation_witness :
    (¬inboundInvalid (some ⟨none, some "alice", some "salut"⟩))
    ∧ ∃ frame, isMessageShape frame = true ∧
        (∀ cl ∈ [1, 2, 3], cl ≠ 2 →
          (cl, frame) ∈ (handleMessage [("r1", [1, 2, 3])] ⟨[], 0, 0⟩ (fun c => c != 2)
            "r1" "u1" 1 (some ⟨none, some "alice", some "salut"⟩) true true).sends)
        ∧ (∀ g, ((2 : Conn), g) ∉ (handleMessage [("r1", [1, 2, 3])] ⟨[], 0, 0⟩
            (fun c => c != 2) "r1" "u1" 1
            (some ⟨none, some "alice", some "salut"⟩) true true).sends)
        ∧ (∀ cl g, (cl, g) ∈ (handleMessage [("r1", [1, 2, 3])] ⟨[], 0, 0⟩
            (fun c => c != 2) "r1" "u1" 1
            (some ⟨none, some "alice", some "salut"⟩) true true).sends →
            g = frame ∧ isErrorShape g = false)
        ∧ (handleMessage [("r1", [1, 2, 3])] ⟨[], 0, 0⟩ (fun c => c != 2)
            "r1" "u1" 1 (some ⟨none, some "alice", some "salut"⟩) true true).closed
          = false := by
  have hval : ¬inboundInvalid (some ⟨none, some "alice", some "salut"⟩) := by decide
  exact ⟨hval, broadcast_isolation [("r1", [1, 2, 3])] ⟨[], 0, 0⟩ (fun c => c != 2)
    "r1" "u1" 1 ⟨none, some "alice", some "salut"⟩ true true [1, 2, 3] 2
    hval rfl rfl rfl (by decide) (by decide)⟩

/-- Claim C10.  Sender identity integrity: every broadcast frame carries
the admission-time user id of the sending connection, every newly persisted
message carries that user id, and the handler result does not depend on any
client-supplied identity field of the payload. -/
theorem sender_identity_integrity (reg : Registry) (store : Store)
    (isOpen : Conn → Bool) (roomId userId : String) (sender : Conn)
    (dbReady createOk : Bool) (p₁ p₂ : Payload) :
    (∀ cl f, (cl, f) ∈ (handleMessage reg store isOpen roomId userId sender (some p₁)
        dbReady createOk).sends → isMessageShape f = true →
        frameSenderId f = some userId)
    ∧ (∀ msg, msg ∈ (handleMessage reg store isOpen roomId userId sender (some p₁)
        dbReady createOk).store.messages → msg ∉ store.messages →
        msg.userId = userId)
    ∧ (p₁.username = p₂.username → p₁.content = p₂.content →
        handleMessage reg store isOpen roomId userId sender (some p₁) dbReady createOk =
          handleMessage reg store isOpen roomId userId sender (some p₂) dbReady createOk) := by
  refine ⟨?_, ?_, ?_⟩
  · intro cl f hf hshape
    rcases handleMessage_cases reg store isOpen roomId userId sender (some p₁)
        dbReady createOk
      with ⟨m, hm, _⟩ | ⟨p', members, hraw, _, _, _, _, hm⟩ | ⟨p', hraw, _, _, _, _, hm⟩
    · rw [hm] at hf
      simp only [List.mem_singleton, Prod.mk.injEq] at hf
      rw [hf.2, isMessageShape_errFrame] at hshape
      exact absurd hshape (by decide)
    · rw [hm] at hf
      obtain ⟨cl', _, heq⟩ := List.mem_map.mp hf
      injection heq with h1 h2
      rw [← h2]
      rfl
    · rw [hm] at hf
      simp only [List.mem_singleton, Prod.mk.injEq] at hf
      rw [hf.2, isMessageShape_errFrame] at hshape
      exact absurd hshape (by decide)
  · intro msg hmsg hnot
    rcases handleMessage_cases reg store isOpen roomId userId sender (some p₁)
        dbReady createOk
      with ⟨m, hm, _⟩ | ⟨p', members, hraw, _, _, _, _, hm⟩ | ⟨p', hraw, _, _, _, _, hm⟩
    · rw [hm] at hmsg
      exact absurd hmsg hnot
    · rw [hm] at hmsg
      rcases List.mem_append.mp hmsg with hmsg | hmsg
      · exact absurd hmsg hnot
      · rw [List.mem_singleton.mp hmsg]
    · rw [hm] at hmsg
      rcases List.mem_append.mp hmsg with hmsg | hmsg
      · exact absurd hmsg hnot
      · rw [List.mem_singleton.mp hmsg]
  · obtain ⟨u1, un1, ct1⟩ := p₁
    obtain ⟨u2, un2, ct2⟩ := p₂
    intro h1 h2
    simp only at h1 h2
    subst h1; subst h2
    rfl

/-- Claim C9.  The geo utility is the haversine great-circle distance on a
mean Earth radius of 6371 km (in its canonical arcsin form), it is
nonnegative everywhere, and it vanishes on equal points.  Purity and
determinism hold by construction: the embedding is a function of its four
arguments alone. -/
theorem calculateDistance_contract :
    (∀ lat1 lng1 lat2 lng2 : ℝ, calculateDistance lat1 lng1 lat2 lng2 =
      haversineSpecKm lat1 lng1 lat2 lng2)
    ∧ (∀ lat1 lng1 lat2 lng2 : ℝ, 0 ≤ calculateDistance lat1 lng1 lat2 lng2)
    ∧ (∀ a b : ℝ, calculateDistance a b a b = 0) :=
  ⟨calculateDistance_eq_spec, calculateDistance_nonneg, calculateDistance_self⟩

/-! ### Trace lemmas for the broadcast ordering claim -/

theorem receivedIdsLog_append (l1 l2 : List (Conn × Frame)) (c : Conn) :
    receivedIdsLog (l1 ++ l2) c = receivedIdsLog l1 c ++ receivedIdsLog l2 c := by
  unfold receivedIdsLog
  rw [List.filter_append, List.filterMap_append]

theorem receivedIdsLog_cons (e : Conn × Frame) (log : List (Conn × Frame)) (c : Conn) :
    receivedIdsLog (e :: log) c =
      (if e.1 == c then (frameMessageId e.2).toList else []) ++ receivedIdsLog log c := by
  unfold receivedIdsLog
  rw [List.filter_cons]
  by_cases h : (e.1 == c) = true
  · rw [if_pos h, if_pos h, List.filterMap_cons]
    cases hf : frameMessageId e.2 <;> simp [hf]
  · rw [if_neg h, if_neg h, List.nil_append]

theorem receivedIdsLog_single_err (sender : Conn) (m : String) (c : Conn) :
    receivedIdsLog [(sender, errFrame m)] c = [] := by
  rw [receivedIdsLog_cons]
  by_cases h : (sender == c) = true <;>
    simp [h, frameMessageId_errFrame, receivedIdsLog]

theorem mem_receivedIdsLog {log : List (Conn × Frame)} {c : Conn} {i : Nat}
    (h : i ∈ receivedIdsLog log c) :
    ∃ f, (c, f) ∈ log ∧ frameMessageId f = some i := by
  unfold receivedIdsLog at h
  obtain ⟨e, he, hfm⟩ := List.mem_filterMap.mp h
  have hin := List.mem_filter.mp he
  obtain ⟨cl, f⟩ := e
  have hcl : cl = c := by simpa using hin.2
  subst hcl
  exact ⟨f, hin.1, hfm⟩

theorem nodup_all_eq (l : List Conn) (c : Conn) (hnd : l.Nodup)
    (h : ∀ x ∈ l, x = c) : l = [] ∨ l = [c] := by
  cases l with
  | nil => exact .inl rfl
  | cons a t =>
      right
      have ha : a = c := h a (List.mem_cons_self a t)
      subst ha
      cases t with
      | nil => rfl
      | cons b t2 =>
          have hb : b = a := h b (List.mem_cons_of_mem _ (List.mem_cons_self _ _))
          have hmem : a ∈ b :: t2 := by
            rw [hb]
            exact List.mem_cons_self _ _
          exact absurd hmem (List.nodup_cons.mp hnd).1

theorem receivedIdsLog_map_not_mem (t : List Conn) (frame : Frame) (c : Conn)
    (h : c ∉ t) : receivedIdsLog (t.map (fun cl => (cl, frame))) c = [] := by
  induction t with
  | nil => rfl
  | cons a t ih =>
      rw [List.map_cons, receivedIdsLog_cons]
      have hne : ¬a = c := fun hh => h (hh ▸ List.mem_cons_self a t)
      rw [if_neg (by simpa using hne), List.nil_append]
      exact ih (fun hc => h (List.mem_cons_of_mem a hc))

theorem receivedIdsLog_map_const (ms : List Conn) (frame : Frame) (c : Conn)
    (hnd : ms.Nodup) :
    receivedIdsLog (ms.map (fun cl => (cl, frame))) c = [] ∨
      ∃ i, frameMessageId frame = some i ∧
        receivedIdsLog (ms.map (fun cl => (cl, frame))) c = [i] := by
  induction ms with
  | nil => exact .inl rfl
  | cons a t ih =>
      obtain ⟨ha, hnd'⟩ := List.nodup_cons.mp hnd
      rw [List.map_cons, receivedIdsLog_cons]
      by_cases hac : a = c
      · subst hac
        have ht : receivedIdsLog (t.map (fun cl => (cl, frame))) a = [] :=
          receivedIdsLog_map_not_mem t frame a ha
        rw [ht, List.append_nil, if_pos (by simp)]
        cases hf : frameMessageId frame with
        | none => exact .inl (by simp)
        | some i => exact .inr ⟨i, rfl, by simp⟩
      · rw [if_neg (by simpa using hac), List.nil_append]
        exact ih hnd'

theorem mem_setRoom {reg : Registry} {r : String} {ms : List Conn}
    {p : String × List Conn} (h : p ∈ setRoom reg r ms) : p = (r, ms) ∨ p ∈ reg := by
  induction reg with
  | nil => simpa [setRoom] using h
  | cons q rest ih =>
      obtain ⟨k, v⟩ := q
      by_cases hk : k = r
      · simp only [setRoom, if_pos hk] at h
        rcases List.mem_cons.mp h with h | h
        · exact .inl h
        · exact .inr (List.mem_cons_of_mem _ h)
      · simp only [setRoom, if_neg hk] at h
        rcases List.mem_cons.mp h with h | h
        · exact .inr (by rw [h]; exact List.mem_cons_self _ _)
        · rcases ih h with h | h
          · exact .inl h
          · exact .inr (List.mem_cons_of_mem _ h)

theorem mem_deleteRoom {reg : Registry} {r : String} {p : String × List Conn}
    (h : p ∈ deleteRoom reg r) : p ∈ reg := by
  induction reg with
  | nil => simp [deleteRoom] at h
  | cons q rest ih =>
      obtain ⟨k, v⟩ := q
      by_cases hk : k = r
      · simp only [deleteRoom, if_pos hk] at h
        exact List.mem_cons_of_mem _ h
      · simp only [deleteRoom, if_neg hk] at h
        rcases List.mem_cons.mp h with h | h
        · exact h ▸ List.mem_cons_self _ _
        · exact List.mem_cons_of_mem _ (ih h)

theorem membersOf_nodup {reg : Registry}
    (h : ∀ p ∈ reg, (p.2 : List Conn).Nodup) (r : String) :
    (membersOf reg r).Nodup := by
  unfold membersOf
  cases hl : lookupRoom reg r with
  | none => simp
  | some ms => simpa using h _ (lookupRoom_some_mem hl)

theorem setAdd_nodup {ms : List Conn} {c : Conn} (h : ms.Nodup) :
    (setAdd ms c).Nodup := by
  unfold setAdd
  by_cases hc : c ∈ ms
  · rw [if_pos hc]; exact h
  · rw [if_neg hc]
    exact h.append (List.nodup_singleton c) (List.disjoint_singleton.mpr hc)

theorem roomsNodup_register {reg : Registry}
    (h : ∀ p ∈ reg, (p.2 : List Conn).Nodup) (r : String) (c : Conn) :
    ∀ p ∈ registerConn reg r c, (p.2 : List Conn).Nodup := by
  intro p hp
  rcases mem_setRoom hp with hp | hp
  · rw [hp]
    exact setAdd_nodup (membersOf_nodup h r)
  · exact h _ hp

theorem roomsNodup_deregister {reg : Registry}
    (h : ∀ p ∈ reg, (p.2 : List Conn).Nodup) (r : String) (c : Conn) :
    ∀ p ∈ deregisterConn reg r c, (p.2 : List Conn).Nodup := by
  intro p hp
  rcases hll : lookupRoom reg r with _ | room
  · rw [deregisterConn_of_none c hll] at hp
    exact h _ hp
  · rw [deregisterConn_of_some c hll] at hp
    by_cases hz : (room.erase c).length = 0
    · rw [if_pos hz] at hp
      exact h _ (mem_deleteRoom hp)
    · rw [if_neg hz] at hp
      rcases mem_setRoom hp with hp | hp
      · rw [hp]
        exact (h _ (lookupRoom_some_mem hll)).erase c
      · exact h _ hp

theorem step_connect_log (s : SysState) (c : Conn) (ri ui : String) :
    (step s (.connect c ri ui)).log = s.log := by
  simp only [step]
  split <;> rfl

theorem step_close_log (s : SysState) (c : Conn) :
    (step s (.close c)).log = s.log := by
  simp only [step]
  cases h : lookupConn s.conns c with
  | none => rfl
  | some v => obtain ⟨a, b⟩ := v; rfl

theorem step_message_none {s : SysState} {c : Conn} {raw : Option Payload}
    {db ck : Bool} (h : lookupConn s.conns c = none) :
    step s (.message c raw db ck) = s := by
  simp only [step, h]

theorem step_message_some {s : SysState} {c : Conn} {raw : Option Payload}
    {db ck : Bool} {ri ui : String} (h : lookupConn s.conns c = some (ri, ui)) :
    step s (.message c raw db ck) =
      { s with store := (handleMessage s.reg s.store (isOpenIn s) ri ui c raw db ck).store,
               log := s.log ++ (handleMessage s.reg s.store (isOpenIn s) ri ui c raw db ck).sends } := by
  simp only [step, h]

/-- Witness for C10: two payloads differing only in a client-supplied
identity field produce identical handler results, and a broadcast frame
carries the admission-time user id. -/
theorem sender_identity_integrity_witness :
    handleMessage [("r1", [4])] ⟨[], 0, 0⟩ (fun _ => true) "r1" "u1" 4
        (some ⟨some "mallory", some "alice", some "hi"⟩) true true =
      handleMessage [("r1", [4])] ⟨[], 0, 0⟩ (fun _ => true) "r1" "u1" 4
        (some ⟨some "u1", some "alice", some "hi"⟩) true true
    ∧ ((4 : Conn), messageFrame 0 "u1" "alice" "hi" 0) ∈
        (handleMessage [("r1", [4])] ⟨[], 0, 0⟩ (fun _ => true) "r1" "u1" 4
          (some ⟨some "mallory", some "alice", some "hi"⟩) true true).sends
    ∧ frameSenderId (messageFrame 0 "u1" "alice" "hi" 0) = some "u1" := by
  have hmem : ((4 : Conn), messageFrame 0 "u1" "alice" "hi" 0) ∈
      (handleMessage [("r1", [4])] ⟨[], 0, 0⟩ (fun _ => true) "r1" "u1" 4
        (some ⟨some "mallory", some "alice", some "hi"⟩) true true).sends := by decide
  refine ⟨(sender_identity_integrity [("r1", [4])] ⟨[], 0, 0⟩ (fun _ => true)
    "r1" "u1" 4 true true ⟨some "mallory", some "alice", some "hi"⟩
    ⟨some "u1", some "alice", some "hi"⟩).2.2 rfl rfl, hmem, ?_⟩
  exact (sender_identity_integrity [("r1", [4])] ⟨[], 0, 0⟩ (fun _ => true)
    "r1" "u1" 4 true true ⟨some "mallory", some "alice", some "hi"⟩
    ⟨some "u1", some "alice", some "hi"⟩).1 4 _ hmem rfl

theorem inv_init : Inv initState := by
  refine ⟨?_, ?_, ?_, ?_, ?_⟩ <;> simp [initState, receivedIdsLog]

theorem inv_step (s : SysState) (e : Event) (h : Inv s) : Inv (step s e) := by
  obtain ⟨hreg, hbound, hsorted, hlog, hrecv⟩ := h
  cases e with
  | connect c ri ui =>
      simp only [step]
      by_cases hc : (lookupConn s.conns c).isSome
      · rw [if_pos hc]
        exact ⟨hreg, hbound, hsorted, hlog, hrecv⟩
      · rw [if_neg hc]
        exact ⟨roomsNodup_register hreg ri c, hbound, hsorted, hlog, hrecv⟩
  | close c =>
      simp only [step]
      cases hlc : lookupConn s.conns c with
      | none => exact ⟨hreg, hbound, hsorted, hlog, hrecv⟩
      | some v =>
          obtain ⟨ri, ui⟩ := v
          exact ⟨roomsNodup_deregister hreg ri c, hbound, hsorted, hlog, hrecv⟩
  | message c raw db ck =>
      cases hlc : lookupConn s.conns c with
      | none =>
          rw [step_message_none hlc]
          exact ⟨hreg, hbound, hsorted, hlog, hrecv⟩
      | some v =>
          obtain ⟨ri, ui⟩ := v
          rw [step_message_some hlc]
          rcases handleMessage_cases s.reg s.store (isOpenIn s) ri ui c raw db ck
            with ⟨m, hm, _⟩ | ⟨p, members, hraw, hval, hdb, hck, hmemb, hm⟩ |
              ⟨p, hraw, hval, hdb, hck, hmemb, hm⟩
          · rw [hm]
            refine ⟨hreg, hbound, hsorted, ?_, ?_⟩
            · intro cl f hf i hfid
              rcases List.mem_append.mp hf with hf | hf
              · exact hlog cl f hf i hfid
              · have := List.mem_singleton.mp hf
                injection this with h1 h2
                rw [h2, frameMessageId_errFrame] at hfid
                exact absurd hfid (by simp)
            · intro cl
              rw [receivedIdsLog_append, receivedIdsLog_single_err, List.append_nil]
              exact hrecv cl
          · rw [hm]
            have hmembnd : members.Nodup := by
              simpa using hreg _ (lookupRoom_some_mem hmemb)
            refine ⟨hreg, ?_, ?_, ?_, ?_⟩
            · intro m2 hm2
              rcases List.mem_append.mp hm2 with hm2 | hm2
              · exact Nat.lt_succ_of_lt (hbound m2 hm2)
              · rw [List.mem_singleton.mp hm2]
                exact Nat.lt_succ_self _
            · rw [List.map_append, List.pairwise_append]
              refine ⟨hsorted, by simp, ?_⟩
              intro a ha b hb
              simp only [List.map_cons, List.map_nil, List.mem_singleton] at hb
              rw [hb]
              obtain ⟨m2, hm2, hma⟩ := List.mem_map.mp ha
              rw [← hma]
              exact hbound m2 hm2
            · intro cl f hf i hfid
              rcases List.mem_append.mp hf with hf | hf
              · exact Nat.lt_succ_of_lt (hlog cl f hf i hfid)
              · obtain ⟨cl', _, heq⟩ := List.mem_map.mp hf
                injection heq with h1 h2
                rw [← h2] at hfid
                have : some s.store.nextId = some i := hfid
                injection this with h3
                rw [← h3]
                exact Nat.lt_succ_self _
            · intro cl
              rw [receivedIdsLog_append, List.pairwise_append]
              refine ⟨hrecv cl, ?_, ?_⟩
              · rcases receivedIdsLog_map_const (members.filter (isOpenIn s)) _ cl
                  (hmembnd.filter _) with hz | ⟨i, hfi, hz⟩
                · rw [hz]
                  exact List.Pairwise.nil
                · rw [hz]
                  exact List.pairwise_singleton _ _
              · intro a ha b hb
                rcases receivedIdsLog_map_const (members.filter (isOpenIn s)) _ cl
                  (hmembnd.filter _) with hz | ⟨i, hfi, hz⟩
                · rw [hz] at hb
                  simp at hb
                · rw [hz] at hb
                  have hb' : b = i := List.mem_singleton.mp hb
                  have h4 : some s.store.nextId = some i := hfi
                  injection h4 with h4
                  obtain ⟨f, hfl, hfid⟩ := mem_receivedIdsLog ha
                  have h5 := hlog cl f hfl a hfid
                  omega
          · rw [hm]
            refine ⟨hreg, ?_, ?_, ?_, ?_⟩
            · intro m2 hm2
              rcases List.mem_append.mp hm2 with hm2 | hm2
              · exact Nat.lt_succ_of_lt (hbound m2 hm2)
              · rw [List.mem_singleton.mp hm2]
                exact Nat.lt_succ_self _
            · rw [List.map_append, List.pairwise_append]
              refine ⟨hsorted, by simp, ?_⟩
              intro a ha b hb
              simp only [List.map_cons, List.map_nil, List.mem_singleton] at hb
              rw [hb]
              obtain ⟨m2, hm2, hma⟩ := List.mem_map.mp ha
              rw [← hma]
              exact hbound m2 hm2
            · intro cl f hf i hfid
              rcases List.mem_append.mp hf with hf | hf
              · exact Nat.lt_succ_of_lt (hlog cl f hf i hfid)
              · have := List.mem_singleton.mp hf
                injection this with h1 h2
                rw [h2, frameMessageId_errFrame] at hfid
                exact absurd hfid (by simp)
            · intro cl
              rw [receivedIdsLog_append, receivedIdsLog_single_err, List.append_nil]
              exact hrecv cl

theorem inv_foldl : ∀ (l : List Event) (s : SysState), Inv s → Inv (l.foldl step s) := by
  intro l
  induction l with
  | nil => intro s hs; exact hs
  | cons e t ih =>
      intro s hs
      exact ih _ (inv_step s e hs)

theorem inv_run (events : List Event) : Inv (run events) :=
  inv_foldl events initState inv_init

theorem run_append_one (pre : List Event) (e : Event) :
    run (pre ++ [e]) = step (run pre) e := by
  unfold run
  rw [List.foldl_append]
  rfl

/-- Claim C8.  Per-room broadcast ordering and no backlog replay: ids are
assigned strictly increasing in persistence order, every connection
receives message frames in strictly increasing id order (hence two
persisted messages of one room reach every common recipient in persistence
order), and at every step a newly delivered frame carries the id of the
message persisted at that very step and goes only to connections that are
members of its room at that step, so a later joiner receives no earlier
message. -/
theorem room_broadcast_order (events : List Event) :
    List.Pairwise (· < ·) ((run events).store.messages.map StoredMessage.id)
    ∧ (∀ c, List.Pairwise (· < ·) (receivedIds (run events) c))
    ∧ (∀ pre e suf, events = pre ++ e :: suf →
        ∀ cc f i, (cc, f) ∈ (run (pre ++ [e])).log → (cc, f) ∉ (run pre).log →
          frameMessageId f = some i →
          ∃ msg, msg ∈ (run (pre ++ [e])).store.messages ∧ msg.id = i ∧
            msg ∉ (run pre).store.messages ∧
            cc ∈ membersOf (run pre).reg msg.barId) := by
  obtain ⟨hregE, hboundE, hsortedE, hlogE, hrecvE⟩ := inv_run events
  refine ⟨hsortedE, fun c => hrecvE c, ?_⟩
  intro pre e suf _ cc f i hin hout hfid
  obtain ⟨hregP, hboundP, hsortedP, hlogP, hrecvP⟩ := inv_run pre
  rw [run_append_one] at hin ⊢
  cases e with
  | connect c2 ri ui =>
      rw [step_connect_log] at hin
      exact absurd hin hout
  | close c2 =>
      rw [step_close_log] at hin
      exact absurd hin hout
  | message c2 raw db ck =>
      cases hlc : lookupConn (run pre).conns c2 with
      | none =>
          rw [step_message_none hlc] at hin
          exact absurd hin hout
      | some v =>
          obtain ⟨ri, ui⟩ := v
          rw [step_message_some hlc] at hin ⊢
          rcases List.mem_append.mp hin with hin | hin
          · exact absurd hin hout
          · rcases handleMessage_cases (run pre).reg (run pre).store
                (isOpenIn (run pre)) ri ui c2 raw db ck
              with ⟨m, hm, _⟩ | ⟨p, members, hraw, hval, hdb, hck, hmemb, hm⟩ |
                ⟨p, hraw, hval, hdb, hck, hmemb, hm⟩
            · rw [hm] at hin
              have := List.mem_singleton.mp hin
              injection this with h1 h2
              rw [h2, frameMessageId_errFrame] at hfid
              exact absurd hfid (by simp)
            · rw [hm] at hin ⊢
              obtain ⟨cl', hcl', heq⟩ := List.mem_map.mp hin
              injection heq with h1 h2
              have h40 : frameMessageId f = some ((run pre).store.nextId) := by
                rw [← h2]
                rfl
              rw [hfid] at h40
              injection h40 with h41
              refine ⟨⟨(run pre).store.nextId, ri, ui, ((p.username).getD ""),
                ((p.content).getD ""), (run pre).store.now⟩, ?_, h41.symm, ?_, ?_⟩
              · exact List.mem_append_right _ (List.mem_singleton.mpr rfl)
              · intro hmem
                exact lt_irrefl _ (hboundP _ hmem)
              · have hcc : cc ∈ members := by
                  have hmf := (List.mem_filter.mp hcl').1
                  rw [h1] at hmf
                  exact hmf
                show cc ∈ membersOf (run pre).reg ri
                unfold membersOf
                rw [hmemb]
                exact hcc
            · rw [hm] at hin
              have := List.mem_singleton.mp hin
              injection this with h1 h2
              rw [h2, frameMessageId_errFrame] at hfid
              exact absurd hfid (by simp)

/-- Witness for C8 at a concrete two-member trace: the second member
receives the frame of the one persisted message, which was persisted at
that very step while the member was in the room. -/
theorem room_broadcast_order_witness :
    ((2 : Conn), messageFrame 0 "u" "a" "h" 0) ∈
      (run ([Event.connect 1 "r" "u", Event.connect 2 "r" "u2"] ++
        [Event.message 1 (some ⟨none, some "a", some "h"⟩) true true])).log
    ∧ ((2 : Conn), messageFrame 0 "u" "a" "h" 0) ∉
      (run [Event.connect 1 "r" "u", Event.connect 2 "r" "u2"]).log
    ∧ ∃ msg, msg ∈ (run ([Event.connect 1 "r" "u", Event.connect 2 "r" "u2"] ++
          [Event.message 1 (some ⟨none, some "a", some "h"⟩) true true])).store.messages ∧
        msg.id = 0 ∧
        msg ∉ (run [Event.connect 1 "r" "u", Event.connect 2 "r" "u2"]).store.messages ∧
        (2 : Conn) ∈ membersOf
          (run [Event.connect 1 "r" "u", Event.connect 2 "r" "u2"]).reg msg.barId := by
  have hin : ((2 : Conn), messageFrame 0 "u" "a" "h" 0) ∈
      (run ([Event.connect 1 "r" "u", Event.connect 2 "r" "u2"] ++
        [Event.message 1 (some ⟨none, some "a", some "h"⟩) true true])).log := by decide
  have hout : ((2 : Conn), messageFrame 0 "u" "a" "h" 0) ∉
      (run [Event.connect 1 "r" "u", Event.connect 2 "r" "u2"]).log := by decide
  exact ⟨hin, hout,
    (room_broadcast_order [Event.connect 1 "r" "u", Event.connect 2 "r" "u2",
        Event.message 1 (some ⟨none, some "a", some "h"⟩) true true]).2.2
      [Event.connect 1 "r" "u", Event.connect 2 "r" "u2"]
      (Event.message 1 (some ⟨none, some "a", some "h"⟩) true true) [] rfl
      2 (messageFrame 0 "u" "a" "h" 0) 0 hin hout rfl⟩

end ElixirWs
